import Mathlib

/-!
Verification of the Cactus terminal-session manager.

Shallow embedding of the core logic of the repository:
- `models.py`: the `Status` enum, the `Session` dataclass, `generate_random_name`;
- `terminal.py`: `detect_status` (the status classifier) and
  `TerminalClient.get_pane_map` (pane-listing parse loop);
- `app.py`: `CactusApp` registry operations (`_sort_sessions`,
  `action_new_session`, `action_switch_session`, `action_delete_session`,
  `_update_status`, `_load_existing_sessions`);
- `screens.py`: the name/path resolution of `NewSessionScreen.on_input_submitted`.

Subprocess calls to tmux are modelled by explicit parameters (the lines the
backend would print, whether a focus switch found an attached client, whether a
backend delete succeeded); `datetime.now()` timestamps are modelled as integers;
Python object identity inside the registry list is modelled by list position.
-/

/-- Python string membership `pat in s` (substring containment), over char lists. -/
def hasSub (pat : List Char) : List Char → Bool
  | [] => pat.isEmpty
  | c :: t => pat.isPrefixOf (c :: t) || hasSub pat t

/-- `pat in s` for strings, as in Python. -/
def strIn (pat s : String) : Bool := hasSub pat.toList s.toList

/-- Python `str.strip()`: remove leading and trailing whitespace. -/
def pyStrip (s : String) : String :=
  String.mk (((s.toList.dropWhile Char.isWhitespace).reverse.dropWhile
    Char.isWhitespace).reverse)

/-- `models.Status`: the four session states. The Python enum values are the
display colours; only the constructors matter to the logic. -/
inductive Status where
  | WORKING
  | WAITING
  | READY
  | READ
deriving DecidableEq, Repr, Inhabited

/-- `models.Session` dataclass. `last_visited` (a `datetime` in Python) is an
integer timestamp; field defaults are the dataclass defaults. -/
structure Session where
  name : String
  path : String
  tmux_session_name : String
  last_content : String := ""
  status : Status := Status.READY
  is_active : Bool := false
  last_visited : Int := 0
deriving DecidableEq, Repr, Inhabited

/-- The fixed interactive-confirmation phrases of `terminal.detect_status`. -/
def confirmationPhrases : List String :=
  ["Would you like to proceed?", "1. Yes", "Do you want to"]

/-- `terminal.detect_status(content, last_content, current_status)`:
returns `(new_status, changed)`. -/
def detect_status (content last_content : String) (current_status : Status) :
    Status × Bool :=
  if content ≠ last_content then
    (Status.WORKING, true)
  else if strIn ">" content then
    if current_status ≠ Status.READ then
      (Status.READY, decide (current_status ≠ Status.READY))
    else
      (Status.READ, false)
  else if confirmationPhrases.any (fun p => strIn p content) then
    (Status.WAITING, decide (current_status ≠ Status.WAITING))
  else
    (Status.WORKING, decide (current_status ≠ Status.WORKING))

/-- Claim C1: for every pair of text samples with `sample ≠ previousSample` and
every current state, `detect_status sample previousSample currentState`
returns `(WORKING, true)`. -/
theorem detect_status_changed_content (sample previousSample : String)
    (currentState : Status) (h : sample ≠ previousSample) :
    detect_status sample previousSample currentState = (Status.WORKING, true) := by
  simp [detect_status, h]

/-- Witness for C1 at a concrete changed sample. -/
theorem detect_status_changed_content_witness :
    detect_status "compiling..." "done >" Status.READ = (Status.WORKING, true) :=
  detect_status_changed_content "compiling..." "done >" Status.READ (by decide)

/-- Claim C2: a sample containing the prompt marker `>`, unchanged since the
last poll, never promotes a READ session back to READY:
`detect_status sample sample READ = (READ, false)`. -/
theorem detect_status_read_sticky (sample : String)
    (h : strIn ">" sample = true) :
    detect_status sample sample Status.READ = (Status.READ, false) := by
  simp [detect_status, h]

/-- Witness for C2 at a concrete idle prompt. -/
theorem detect_status_read_sticky_witness :
    detect_status "$ >" "$ >" Status.READ = (Status.READ, false) :=
  detect_status_read_sticky "$ >" (by decide)

/-- Claim C6: for every sample containing `>` (also when a confirmation phrase
is present) and every `currentState ≠ READ`, `detect_status sample sample
currentState = (READY, changed)` with `changed` true exactly when
`currentState ≠ READY`; the idle-prompt rule precedes the confirmation rule. -/
theorem detect_status_prompt_precedence (sample : String) (currentState : Status)
    (hmark : strIn ">" sample = true) (hst : currentState ≠ Status.READ) :
    detect_status sample sample currentState =
      (Status.READY, decide (currentState ≠ Status.READY)) := by
  simp [detect_status, hmark, hst]

/-- Witness for C6: a sample holding both a `>` marker and a confirmation
phrase, in state WORKING, classifies as `(READY, true)`. -/
theorem detect_status_prompt_precedence_witness :
    detect_status "> Would you like to proceed?" "> Would you like to proceed?"
      Status.WORKING = (Status.READY, true) :=
  detect_status_prompt_precedence "> Would you like to proceed?" Status.WORKING
    (by decide) (by decide)

/-- Python `line.split(" ", 1)` on a char list: the part before the first
space, and the remainder after it when a space exists. -/
def splitOnceAtSpace : List Char → List Char × Option (List Char)
  | [] => ([], none)
  | c :: t =>
    if c = ' ' then ([], some t)
    else
      let r := splitOnceAtSpace t
      (c :: r.1, r.2)

/-- One iteration of the `TerminalClient.get_pane_map` parse loop: skip empty
lines, and keep only lines that split into two parts at a space. -/
def parsePaneLine (line : String) : Option (String × String) :=
  if line = "" then none
  else
    match splitOnceAtSpace line.toList with
    | (_, none) => none
    | (k, some v) => some (String.mk k, String.mk v)

/-- The loop body of `TerminalClient.get_pane_map`: the Python dict
(insertion-ordered, guarded by `parts[0] not in pane_map`) is an association
list extended at the back. -/
def panePutIfAbsent (m : List (String × String)) (line : String) :
    List (String × String) :=
  match parsePaneLine line with
  | none => m
  | some (k, v) => if (m.lookup k).isSome then m else m ++ [(k, v)]

/-- `TerminalClient.get_pane_map`, given the lines printed by
`tmux list-panes -a` in the format "session_name pane_id". -/
def get_pane_map (lines : List String) : List (String × String) :=
  lines.foldl panePutIfAbsent []

/-- The pane id of the first listed line whose session name is `k`. -/
def firstPaneFor (k : String) : List String → Option String
  | [] => none
  | line :: rest =>
    match parsePaneLine line with
    | some (k2, v) => if k2 = k then some v else firstPaneFor k rest
    | none => firstPaneFor k rest

theorem lookup_append_or (k : String) (l2 l1 : List (String × String)) :
    (l1 ++ l2).lookup k = (l1.lookup k).or (l2.lookup k) := by
  induction l1 with
  | nil => simp [List.lookup]
  | cons h t ih =>
    obtain ⟨k2, v⟩ := h
    by_cases hk : k == k2 <;> simp [List.lookup, hk, ih]

theorem lookup_foldl_panePutIfAbsent (k : String) :
    ∀ (lines : List String) (m : List (String × String)),
      ((lines.foldl panePutIfAbsent m).lookup k)
        = (m.lookup k).or (firstPaneFor k lines) := by
  intro lines
  induction lines with
  | nil => intro m; simp [firstPaneFor]
  | cons line rest ih =>
    intro m
    simp only [List.foldl_cons, firstPaneFor]
    cases hp : parsePaneLine line with
    | none => simp [panePutIfAbsent, hp, ih]
    | some kv =>
      obtain ⟨k2, v⟩ := kv
      by_cases hs : (m.lookup k2).isSome
      · simp only [panePutIfAbsent, hp, hs, if_pos]
        rw [ih]
        by_cases hk : k2 = k
        · subst hk
          obtain ⟨w, hw⟩ := Option.isSome_iff_exists.mp hs
          simp [hw]
        · simp [hk]
      · simp only [panePutIfAbsent, hp, hs, if_neg, Bool.false_eq_true, if_false]
        rw [ih, lookup_append_or]
        by_cases hk : k2 = k
        · subst hk
          have hnone : m.lookup k2 = none := Option.not_isSome_iff_eq_none.mp hs
          have hone : ([(k2, v)] : List (String × String)).lookup k2 = some v := by
            simp [List.lookup]
          simp [hnone, hone]
        · have hone : ([(k2, v)] : List (String × String)).lookup k = none := by
            have hb : (k == k2) = false := by
              simp only [beq_eq_false_iff_ne, ne_eq]
              exact fun hh => hk hh.symm
            simp [List.lookup, hb]
          simp [hone, hk]

/-- Counterexample to claim C3 as stated: when a session name is listed twice,
`get_pane_map` keeps the FIRST listed pane id, not the most recently listed
one. -/
theorem get_pane_map_last_wins_false :
    (get_pane_map ["alpha %1", "alpha %2"]).lookup "alpha" = some "%1" ∧
      (get_pane_map ["alpha %1", "alpha %2"]).lookup "alpha" ≠ some "%2" := by
  decide

/-- Claim C3 amended: `get_pane_map` maps each session name to the pane id of
the first line listed for it; for a session name listed more than once the
first-listed pane id wins. -/
theorem get_pane_map_first_wins (lines : List String) (k : String) :
    (get_pane_map lines).lookup k = firstPaneFor k lines := by
  rw [get_pane_map, lookup_foldl_panePutIfAbsent]
  simp [List.lookup]

/-- `models.ADJECTIVES`. -/
def ADJECTIVES : List String :=
  ["swift", "bright", "quiet", "bold", "cool", "calm", "wild", "deep",
   "keen", "wise", "pure", "warm", "fresh", "smooth", "sharp", "clear"]

/-- `models.NOUNS`. -/
def NOUNS : List String :=
  ["fox", "hawk", "wolf", "bear", "lynx", "eagle", "raven", "otter",
   "spark", "wave", "node", "pixel", "cloud", "forge", "vertex", "prism"]

/-- `models.generate_random_name`: the two `random.choice` draws are modelled
by the index arguments `ia` (adjective) and `ni` (noun), reduced modulo the
list lengths as `random.choice` always picks in range. -/
def generate_random_name (ia ni : Nat) : String :=
  ADJECTIVES.getD (ia % ADJECTIVES.length) "" ++ "-"
    ++ NOUNS.getD (ni % NOUNS.length) ""

/-- `NewSessionScreen.on_input_submitted` (submission on the path field):
resolves the name (stripped input, or a random draw when blank) and the path
(stripped input, or "~" when blank). -/
def on_input_submitted (nameValue pathValue : String) (ia ni : Nat) :
    String × String :=
  (if pyStrip nameValue = "" then generate_random_name ia ni
   else pyStrip nameValue,
   if pyStrip pathValue = "" then "~" else pyStrip pathValue)

/-- Counterexample to claim C4 as stated: with an existing session already
named "swift-fox", a blank name input whose random draw is (0, 0) produces
"swift-fox" again — the code never checks the generated name against existing
sessions and never retries. -/
theorem generate_random_name_collision :
    (on_input_submitted "" "/tmp" 0 0).1 = "swift-fox" ∧
      "swift-fox" ∈ ["swift-fox"] := by
  decide

theorem getD_mem_of_lt {l : List String} {i : Nat} {d : String}
    (h : i < l.length) : l.getD i d ∈ l := by
  rw [List.getD_eq_getElem l d h]
  exact List.getElem_mem h

/-- Claim C4 amended: with a blank name input, the generated session name is
always a two-word adjective-noun name (an `ADJECTIVES` element, a hyphen, a
`NOUNS` element); no uniqueness check against existing session names is
performed and no retry occurs. -/
theorem generate_random_name_shape (ia ni : Nat) :
    ∃ a ∈ ADJECTIVES, ∃ n ∈ NOUNS,
      (on_input_submitted "" "/tmp" ia ni).1 = a ++ "-" ++ n := by
  have ha : ia % ADJECTIVES.length < ADJECTIVES.length :=
    Nat.mod_lt _ (by decide)
  have hn : ni % NOUNS.length < NOUNS.length :=
    Nat.mod_lt _ (by decide)
  exact ⟨ADJECTIVES.getD (ia % ADJECTIVES.length) "", getD_mem_of_lt ha,
    NOUNS.getD (ni % NOUNS.length) "", getD_mem_of_lt hn, rfl⟩

/-- `CactusApp.STATUS_PRIORITY` (every status is in the Python dict, so the
`.get` default 99 is unreachable). -/
def STATUS_PRIORITY : Status → Nat
  | Status.WAITING => 1
  | Status.WORKING => 2
  | Status.READY => 3
  | Status.READ => 4

/-- The comparison induced by the Python sort key
`(STATUS_PRIORITY[s.status], -s.last_visited.timestamp())` under ascending
lexicographic tuple order. -/
def sortKeyLE (a b : Session) : Bool :=
  decide (STATUS_PRIORITY a.status < STATUS_PRIORITY b.status)
    || (decide (STATUS_PRIORITY a.status = STATUS_PRIORITY b.status)
        && decide (-a.last_visited ≤ -b.last_visited))

/-- `CactusApp._sort_sessions`: Python `list.sort` (stable) with the key above
is a stable merge sort under `sortKeyLE`. -/
def sort_sessions (sessions : List Session) : List Session :=
  sessions.mergeSort sortKeyLE

theorem sortKeyLE_trans (a b c : Session) (hab : sortKeyLE a b = true)
    (hbc : sortKeyLE b c = true) : sortKeyLE a c = true := by
  simp only [sortKeyLE, Bool.or_eq_true, Bool.and_eq_true,
    decide_eq_true_eq] at hab hbc ⊢
  omega

theorem sortKeyLE_total (a b : Session) :
    (sortKeyLE a b || sortKeyLE b a) = true := by
  simp only [sortKeyLE, Bool.or_eq_true, Bool.and_eq_true,
    decide_eq_true_eq]
  omega

/-- Claim C5: the sorted view is a permutation of the sessions ordered by
status priority WAITING, WORKING, READY, READ (most urgent first), and within
the same status by descending `last_visited` (most recently focused first). -/
theorem sort_sessions_ordering (sessions : List Session) :
    (sort_sessions sessions).Perm sessions ∧
      (sort_sessions sessions).Pairwise (fun a b =>
        STATUS_PRIORITY a.status < STATUS_PRIORITY b.status ∨
          (STATUS_PRIORITY a.status = STATUS_PRIORITY b.status ∧
            b.last_visited ≤ a.last_visited)) := by
  refine ⟨List.mergeSort_perm sessions sortKeyLE, ?_⟩
  have h := @List.sorted_mergeSort Session sortKeyLE sortKeyLE_trans
    sortKeyLE_total sessions
  refine h.imp ?_
  intro a b hab
  simp only [sortKeyLE, Bool.or_eq_true, Bool.and_eq_true,
    decide_eq_true_eq] at hab
  omega

/-- Python `s.startswith(pre)` via char lists (kernel-reducible). -/
def pyStartsWith (pre s : String) : Bool := pre.toList.isPrefixOf s.toList

/-- `models.NUM_LINES_CAPTURE`. -/
def NUM_LINES_CAPTURE : Nat := 8

/-- Python `lines[-n:]`: the last `n` elements (the whole list when shorter). -/
def takeLast (n : Nat) (l : List String) : List String := l.drop (l.length - n)

/-- The loop `for s in self.sessions: s.is_active = (s == session)` of
`action_switch_session` (and the clear-then-mark loop of
`action_delete_session`): position `tIdx` identifies the Python object; `i` is
the position of the current list tail. -/
def set_only_active (tIdx : Nat) : Nat → List Session → List Session
  | _, [] => []
  | i, s :: rest =>
    { s with is_active := decide (i = tIdx) } :: set_only_active tIdx (i + 1) rest

/-- Mutation of the single Python object at position `n` of the registry. -/
def modifyAt (f : Session → Session) : Nat → List Session → List Session
  | _, [] => []
  | 0, s :: rest => f s :: rest
  | n + 1, s :: rest => s :: modifyAt f n rest

/-- `CactusApp.action_switch_session` on the highlighted session at position
`idx`: `switchOk` is the result of `TerminalClient.switch_to_session` (whether
an attached client existed); `now` is `datetime.now()`. Returns the new
registry and the reported outcome (`True` shows "Switched to: ...", `False`
shows "No tmux client!"). -/
def action_switch_session (sessions : List Session) (idx : Nat) (now : Int)
    (switchOk : Bool) : List Session × Bool :=
  if switchOk then
    (modifyAt
      (fun s =>
        { s with
          last_visited := now,
          status := if s.status = Status.READY then Status.READ else s.status })
      idx (set_only_active idx 0 sessions), true)
  else
    (sessions, false)

/-- `CactusApp.action_delete_session` on the session at position `idx`:
when more than one session exists the code first tries to switch every client
to the session at position 0 (or 1 when the deleted one is position 0), and
marks it focused only when that switch reports success (`switchOk`); the
backend `kill-session` outcome (`bk`) is ignored and `self.sessions.remove`
runs unconditionally. -/
def action_delete_session (sessions : List Session) (idx : Nat)
    (switchOk : Bool) (bk : Bool) : List Session :=
  let sessions1 :=
    if 1 < sessions.length then
      if switchOk then
        set_only_active (if idx = 0 then 1 else 0) 0 sessions
      else sessions
    else sessions
  let _ := bk
  sessions1.eraseIdx idx

/-- `CactusApp.action_new_session` after the modal returns `name`/`path`:
clears `is_active` on every session and appends a fresh `Session` (dataclass
defaults give `last_content = ""` and `status = READY`). -/
def action_new_session (sessions : List Session) (name path : String)
    (now : Int) : List Session :=
  (sessions.map fun s => { s with is_active := false })
    ++ [{ name := name, path := path,
          tmux_session_name := "claude-" ++ name,
          is_active := true, last_visited := now }]

/-- `CactusApp._load_existing_sessions`: discover backend sessions whose name
starts with "claude-"; each `Session` is built with the dataclass defaults and
`name` equal to the backend name with the 7-character prefix dropped. -/
def load_existing_sessions (backendNames : List String) (now : Int) :
    List Session :=
  (backendNames.filter fun n => pyStartsWith "claude-" n).map fun n =>
    { name := n.drop 7, path := "", tmux_session_name := n,
      last_visited := now }

/-- One session's update in `CactusApp._update_status`: look up the pane,
capture it, keep the session untouched when either fails, otherwise classify
the last `NUM_LINES_CAPTURE` lines joined by newlines. -/
def pollOne (paneMap : String → Option String)
    (capturePane : String → List String) (s : Session) : Session :=
  match paneMap s.tmux_session_name with
  | none => s
  | some paneId =>
    let lines := capturePane paneId
    if lines = [] then s
    else
      let content := String.intercalate "\n" (takeLast NUM_LINES_CAPTURE lines)
      let r := detect_status content s.last_content s.status
      { s with
        last_content := if content ≠ s.last_content then content
                        else s.last_content,
        status := if r.2 then r.1 else s.status }

/-- `CactusApp._update_status`: the poll tick over every known session. -/
def update_status (paneMap : String → Option String)
    (capturePane : String → List String) (sessions : List Session) :
    List Session :=
  sessions.map (pollOne paneMap capturePane)

/-- Number of sessions whose `is_active` flag is set. -/
def countActive (l : List Session) : Nat :=
  (l.filter fun s => s.is_active).length

theorem getD_set_only_active (t : Nat) :
    ∀ (l : List Session) (i j : Nat) (d : Session), j < l.length →
      (set_only_active t i l).getD j d
        = { l.getD j d with is_active := decide (i + j = t) } := by
  intro l
  induction l with
  | nil => intro i j d h; simp at h
  | cons s rest ih =>
    intro i j d h
    cases j with
    | zero => simp [set_only_active]
    | succ k =>
      have hk : k < rest.length := by simpa using h
      have heq : i + (k + 1) = i + 1 + k := by omega
      rw [set_only_active, List.getD_cons_succ, List.getD_cons_succ,
        ih (i + 1) k d hk, heq]

theorem getD_modifyAt (f : Session → Session) :
    ∀ (l : List Session) (n j : Nat) (d : Session), j < l.length →
      (modifyAt f n l).getD j d
        = if j = n then f (l.getD j d) else l.getD j d := by
  intro l
  induction l with
  | nil => intro n j d h; simp at h
  | cons s rest ih =>
    intro n j d h
    cases n with
    | zero =>
      cases j with
      | zero => simp [modifyAt]
      | succ k => simp [modifyAt, List.getD_cons_succ]
    | succ m =>
      cases j with
      | zero => simp [modifyAt]
      | succ k =>
        have hk : k < rest.length := by simpa using h
        rw [modifyAt, List.getD_cons_succ, List.getD_cons_succ, ih m k d hk]
        simp

theorem length_set_only_active (t : Nat) :
    ∀ (i : Nat) (l : List Session),
      (set_only_active t i l).length = l.length := by
  intro i l
  induction l generalizing i with
  | nil => rfl
  | cons s rest ih => simp [set_only_active, ih]

theorem names_set_only_active (t : Nat) :
    ∀ (i : Nat) (l : List Session),
      (set_only_active t i l).map (fun s => s.name)
        = l.map (fun s => s.name) := by
  intro i l
  induction l generalizing i with
  | nil => rfl
  | cons s rest ih => simp [set_only_active, ih]

theorem map_eraseIdx_comm {α β : Type} (f : α → β) :
    ∀ (l : List α) (i : Nat), (l.eraseIdx i).map f = (l.map f).eraseIdx i := by
  intro l
  induction l with
  | nil => intro i; rfl
  | cons s rest ih =>
    intro i
    cases i with
    | zero => rfl
    | succ m => simp [List.eraseIdx_cons_succ, ih m]

theorem getD_eraseIdx :
    ∀ (l : List Session) (i j : Nat) (d : Session), i < l.length →
      (l.eraseIdx i).getD j d
        = if j < i then l.getD j d else l.getD (j + 1) d := by
  intro l
  induction l with
  | nil => intro i j d h; simp at h
  | cons s rest ih =>
    intro i j d h
    cases i with
    | zero => simp [List.eraseIdx_cons_zero, List.getD_cons_succ]
    | succ m =>
      have hm : m < rest.length := by simpa using h
      cases j with
      | zero => simp [List.eraseIdx_cons_succ]
      | succ k =>
        rw [List.eraseIdx_cons_succ, List.getD_cons_succ, ih m k d hm]
        by_cases hkm : k < m
        · have : k + 1 < m + 1 := by omega
          simp [hkm, this, List.getD_cons_succ]
        · have : ¬(k + 1 < m + 1) := by omega
          simp [hkm, this, List.getD_cons_succ]

/-- Claim C7: when the focus switch succeeds, the session at `idx` becomes the
only one with `is_active`, every other session's `is_active` becomes false
(their other fields untouched), its `last_visited` is stamped with `now`, a
READY status is demoted to READ, and the outcome is reported back. -/
theorem action_switch_session_focus (sessions : List Session) (idx : Nat)
    (now : Int) (switchOk : Bool) (h : idx < sessions.length) :
    (action_switch_session sessions idx now switchOk).2 = switchOk ∧
      (switchOk = true → ∀ (j : Nat) (d : Session), j < sessions.length →
        (action_switch_session sessions idx now switchOk).1.getD j d
          = if j = idx then
              { sessions.getD j d with
                is_active := true, last_visited := now,
                status := if (sessions.getD j d).status = Status.READY
                          then Status.READ else (sessions.getD j d).status }
            else { sessions.getD j d with is_active := false }) := by
  constructor
  · cases switchOk <;> simp [action_switch_session]
  · intro hsw j d hj
    subst hsw
    simp only [action_switch_session, if_true]
    have hlen : j < (set_only_active idx 0 sessions).length := by
      rw [length_set_only_active]; exact hj
    rw [getD_modifyAt _ _ idx j d hlen, getD_set_only_active idx sessions 0 j d hj]
    by_cases hji : j = idx
    · subst hji; simp
    · simp [hji]

/-- Session values used by the concrete witnesses below. -/
def sessA : Session :=
  { name := "alpha", path := "/w/a", tmux_session_name := "claude-alpha",
    status := Status.READY, is_active := false, last_visited := 1 }

/-- Second session value used by the concrete witnesses below. -/
def sessB : Session :=
  { name := "beta", path := "/w/b", tmux_session_name := "claude-beta",
    status := Status.WORKING, is_active := true, last_visited := 2 }

/-- Witness for C7: switching to the READY session `sessA` in a two-session
registry. -/
theorem action_switch_session_focus_witness :
    0 < ([sessA, sessB] : List Session).length ∧
      ((action_switch_session [sessA, sessB] 0 9 true).2 = true ∧
        (true = true → ∀ (j : Nat) (d : Session),
          j < ([sessA, sessB] : List Session).length →
          (action_switch_session [sessA, sessB] 0 9 true).1.getD j d
            = if j = 0 then
                { ([sessA, sessB] : List Session).getD j d with
                  is_active := true, last_visited := 9,
                  status := if (([sessA, sessB] : List Session).getD j d).status
                              = Status.READY
                            then Status.READ
                            else (([sessA, sessB] : List Session).getD j d).status }
              else { ([sessA, sessB] : List Session).getD j d with
                     is_active := false })) :=
  ⟨by decide, action_switch_session_focus [sessA, sessB] 0 9 true (by decide)⟩

/-- Counterexample to claim C8 as stated: deleting the focused session at
position 0 of `[sessB, sessA]` while the backend focus switch fails (no
attached client) removes it, but focus is NOT reassigned: the surviving
session stays unfocused. -/
theorem action_delete_session_focus_counterexample :
    action_delete_session [sessB, sessA] 0 false true = [sessA] ∧
      sessA.is_active = false ∧
      countActive (action_delete_session [sessB, sessA] 0 false true) = 0 := by
  decide

/-- Claim C8 amended: `action_delete_session` removes the session at `idx`
from the registry unconditionally — independently of the backend delete
outcome — and, when at least one other session exists AND the backend focus
switch succeeds, focus is first reassigned to the session at position 0 (or 1
if the deleted one is at position 0), which survives as the sole focused
session at position 0 of the result. -/
theorem action_delete_session_spec (sessions : List Session) (idx : Nat)
    (sw bk bk2 : Bool) (h : idx < sessions.length) :
    action_delete_session sessions idx sw bk
        = action_delete_session sessions idx sw bk2 ∧
      (action_delete_session sessions idx sw bk).map (fun s => s.name)
        = (sessions.map fun s => s.name).eraseIdx idx ∧
      (action_delete_session sessions idx sw bk).length
        = sessions.length - 1 ∧
      (1 < sessions.length → sw = true → ∀ (j : Nat) (d : Session),
        j < sessions.length - 1 →
        ((action_delete_session sessions idx sw bk).getD j d).is_active
            = decide (j = 0) ∧
          ((action_delete_session sessions idx sw bk).getD 0 d).name
            = (sessions.getD (if idx = 0 then 1 else 0) d).name) := by
  have hbase : ∀ (b : Bool),
      (if 1 < sessions.length then
        (if sw then set_only_active (if idx = 0 then 1 else 0) 0 sessions
          else sessions)
        else sessions).length = sessions.length := by
    intro b
    split
    · split
      · exact length_set_only_active _ 0 sessions
      · rfl
    · rfl
  refine ⟨rfl, ?_, ?_, ?_⟩
  · simp only [action_delete_session]
    rw [map_eraseIdx_comm]
    congr 1
    split
    · split
      · exact names_set_only_active _ 0 sessions
      · rfl
    · rfl
  · simp only [action_delete_session]
    rw [List.length_eraseIdx, hbase bk, if_pos h]
  · intro hlen hsw j d hj
    subst hsw
    simp only [action_delete_session, if_pos hlen, if_true]
    have hidx1 : idx <
        (set_only_active (if idx = 0 then 1 else 0) 0 sessions).length := by
      rw [length_set_only_active]; exact h
    have key : ∀ (m : Nat), m < sessions.length →
        ((set_only_active (if idx = 0 then 1 else 0) 0 sessions).getD
            m d).is_active
          = decide (m = if idx = 0 then 1 else 0) := by
      intro m hm
      rw [getD_set_only_active _ sessions 0 m d hm]
      simp
    constructor
    · rw [getD_eraseIdx _ idx j d hidx1]
      by_cases hji : j < idx
      · rw [if_pos hji, key j (by omega)]
        have ht0 : (if idx = 0 then 1 else 0) = 0 := by
          rw [if_neg (by omega)]
        rw [ht0]
      · rw [if_neg hji, key (j + 1) (by omega)]
        by_cases hi0 : idx = 0
        · rw [if_pos hi0]
          simp only [decide_eq_decide]
          omega
        · rw [if_neg hi0]
          simp only [decide_eq_decide]
          omega
    · rw [getD_eraseIdx _ idx 0 d hidx1]
      by_cases hi0 : idx = 0
      · rw [if_neg (by omega),
          getD_set_only_active _ sessions 0 1 d (by omega)]
        simp [hi0]
      · rw [if_pos (by omega),
          getD_set_only_active _ sessions 0 0 d (by omega)]
        simp [hi0]

/-- Witness for C8 at the two-session registry `[sessA, sessB]`, deleting
position 1 with a successful focus switch. -/
theorem action_delete_session_spec_witness :
    1 < ([sessA, sessB] : List Session).length ∧
      (action_delete_session [sessA, sessB] 1 true true
          = action_delete_session [sessA, sessB] 1 true false ∧
        (action_delete_session [sessA, sessB] 1 true true).map (fun s => s.name)
          = (([sessA, sessB] : List Session).map fun s => s.name).eraseIdx 1 ∧
        (action_delete_session [sessA, sessB] 1 true true).length
          = ([sessA, sessB] : List Session).length - 1 ∧
        (1 < ([sessA, sessB] : List Session).length → true = true →
          ∀ (j : Nat) (d : Session),
          j < ([sessA, sessB] : List Session).length - 1 →
          ((action_delete_session [sessA, sessB] 1 true true).getD j d).is_active
              = decide (j = 0) ∧
            ((action_delete_session [sessA, sessB] 1 true true).getD 0 d).name
              = (([sessA, sessB] : List Session).getD
                  (if 1 = 0 then 1 else 0) d).name)) :=
  ⟨by decide, action_delete_session_spec [sessA, sessB] 1 true true false
    (by decide)⟩

theorem countActive_set_only_active_zero (t : Nat) :
    ∀ (i : Nat) (l : List Session), t < i →
      countActive (set_only_active t i l) = 0 := by
  intro i l
  induction l generalizing i with
  | nil => intro hti; rfl
  | cons s rest ih =>
    intro hti
    have hit : decide (i = t) = false := by
      simp only [decide_eq_false_iff_not]
      omega
    simp only [set_only_active, countActive, List.filter_cons, hit,
      Bool.false_eq_true, if_false]
    exact ih (i + 1) (by omega)

theorem countActive_set_only_active_le_one (t : Nat) :
    ∀ (i : Nat) (l : List Session),
      countActive (set_only_active t i l) ≤ 1 := by
  intro i l
  induction l generalizing i with
  | nil => exact Nat.zero_le 1
  | cons s rest ih =>
    by_cases hit : i = t
    · simp only [set_only_active, countActive, List.filter_cons, hit,
        decide_True, if_true, List.length_cons]
      have h0 := countActive_set_only_active_zero t (i + 1) rest (by omega)
      rw [countActive] at h0
      rw [hit] at h0
      omega
    · have hd : decide (i = t) = false := by
        simp only [decide_eq_false_iff_not]
        exact hit
      simp only [set_only_active, countActive, List.filter_cons, hd,
        Bool.false_eq_true, if_false]
      exact ih (i + 1)

theorem countActive_eraseIdx_le (l : List Session) (i : Nat) :
    countActive (l.eraseIdx i) ≤ countActive l :=
  ((List.eraseIdx_sublist l i).filter _).length_le

theorem countActive_append (l1 l2 : List Session) :
    countActive (l1 ++ l2) = countActive l1 + countActive l2 := by
  simp [countActive, List.filter_append]

theorem countActive_map_clear (l : List Session) :
    countActive (l.map fun s => { s with is_active := false }) = 0 := by
  induction l with
  | nil => rfl
  | cons s rest ih =>
    simp only [List.map_cons, countActive, List.filter_cons] at ih ⊢
    simp [ih]

theorem countActive_map_preserve (f : Session → Session)
    (hf : ∀ s, (f s).is_active = s.is_active) (l : List Session) :
    countActive (l.map f) = countActive l := by
  induction l with
  | nil => rfl
  | cons s rest ih =>
    simp only [List.map_cons, countActive, List.filter_cons, hf s]
    simp only [countActive] at ih
    by_cases hs : s.is_active
    · simp [hs, ih]
    · simp only [Bool.not_eq_true] at hs
      simp [hs, ih]

theorem countActive_modifyAt_preserve (f : Session → Session)
    (hf : ∀ s, (f s).is_active = s.is_active) :
    ∀ (n : Nat) (l : List Session),
      countActive (modifyAt f n l) = countActive l := by
  intro n l
  induction l generalizing n with
  | nil => cases n <;> rfl
  | cons s rest ih =>
    have ihm := ih
    simp only [countActive] at ihm
    cases n with
    | zero =>
      simp only [modifyAt, countActive, List.filter_cons, hf s]
      by_cases hs : s.is_active <;> simp [hs]
    | succ m =>
      simp only [modifyAt, countActive, List.filter_cons]
      by_cases hs : s.is_active <;> simp [hs, ihm m]

theorem pollOne_is_active (pm : String → Option String)
    (cp : String → List String) (s : Session) :
    (pollOne pm cp s).is_active = s.is_active := by
  cases hp : pm s.tmux_session_name with
  | none => simp [pollOne, hp]
  | some pid =>
    simp only [pollOne, hp]
    split
    · rfl
    · rfl

/-- Claim C9: each registry operation — create, focus-switch, delete, and the
poll update — preserves the invariant that at most one session has
`is_active = true`. -/
theorem at_most_one_active_invariant (sessions : List Session)
    (name path : String) (nowN nowS : Int) (idxS idxD : Nat)
    (swS swD bk : Bool) (pm : String → Option String)
    (cp : String → List String) (h : countActive sessions ≤ 1) :
    countActive (action_new_session sessions name path nowN) ≤ 1 ∧
      countActive (action_switch_session sessions idxS nowS swS).1 ≤ 1 ∧
      countActive (action_delete_session sessions idxD swD bk) ≤ 1 ∧
      countActive (update_status pm cp sessions) ≤ 1 := by
  refine ⟨?_, ?_, ?_, ?_⟩
  · rw [action_new_session, countActive_append, countActive_map_clear]
    simp [countActive, List.filter_cons]
  · cases swS with
    | false => simpa [action_switch_session] using h
    | true =>
      simp only [action_switch_session, if_true]
      rw [countActive_modifyAt_preserve
        (fun s =>
          { s with
            last_visited := nowS,
            status := if s.status = Status.READY then Status.READ
                      else s.status })
        (fun s => rfl)]
      exact countActive_set_only_active_le_one idxS 0 sessions
  · simp only [action_delete_session]
    refine le_trans (countActive_eraseIdx_le _ idxD) ?_
    split
    · split
      · exact countActive_set_only_active_le_one _ 0 sessions
      · exact h
    · exact h
  · rw [update_status, countActive_map_preserve _ (pollOne_is_active pm cp)]
    exact h

/-- Witness for C9 at the registry `[sessA, sessB]` (one focused session),
with a poll whose pane map is empty. -/
theorem at_most_one_active_invariant_witness :
    countActive [sessA, sessB] ≤ 1 ∧
      (countActive (action_new_session [sessA, sessB] "c" "/w/c" 3) ≤ 1 ∧
        countActive (action_switch_session [sessA, sessB] 0 4 true).1 ≤ 1 ∧
        countActive (action_delete_session [sessA, sessB] 1 true true) ≤ 1 ∧
        countActive
          (update_status (fun _ => none) (fun _ => []) [sessA, sessB]) ≤ 1) :=
  ⟨by decide, at_most_one_active_invariant [sessA, sessB] "c" "/w/c" 3 4 0 1
    true true true (fun _ => none) (fun _ => []) (by decide)⟩

/-- Claim C10: every session entering the registry — discovered at startup by
`_load_existing_sessions` or appended by `action_new_session` — starts with
status READY and an empty `last_content`. -/
theorem sessions_enter_ready (backendNames : List String) (now : Int)
    (sessions : List Session) (name path : String) (now2 : Int) (d : Session) :
    (∀ s ∈ load_existing_sessions backendNames now,
        s.status = Status.READY ∧ s.last_content = "") ∧
      ((action_new_session sessions name path now2).getLastD d).status
          = Status.READY ∧
      ((action_new_session sessions name path now2).getLastD d).last_content
          = "" := by
  refine ⟨?_, ?_, ?_⟩
  · intro s hs
    simp only [load_existing_sessions, List.mem_map] at hs
    obtain ⟨n, hn, rfl⟩ := hs
    exact ⟨rfl, rfl⟩
  · simp [action_new_session, List.getLastD_concat]
  · simp [action_new_session, List.getLastD_concat]

/-- Witness for C10: a backend session "claude-x" discovered at startup enters
the registry as READY with empty content. -/
theorem sessions_enter_ready_witness :
    ({ name := "x", path := "", tmux_session_name := "claude-x",
        last_visited := 7 } : Session) ∈
        load_existing_sessions ["claude-x", "other"] 7 ∧
      (({ name := "x", path := "", tmux_session_name := "claude-x",
          last_visited := 7 } : Session).status = Status.READY ∧
        ({ name := "x", path := "", tmux_session_name := "claude-x",
            last_visited := 7 } : Session).last_content = "") :=
  ⟨by decide,
    (sessions_enter_ready ["claude-x", "other"] 7 [] "a" "/p" 1 sessA).1 _
      (by decide)⟩
